import Mathlib

/-!
Shallow embedding of src/voter.py (voter-roll PDF extractor).

The Python program locates table cells on scanned pages, OCRs each cell,
parses the text into six fields via `re.search`, filters/deduplicates cell
bounding boxes, and accumulates records per document.  Strings are modelled
as `List Char` (via `String.data`); the regular expressions of
`extract_from_cell_text` are embedded as explicit backtracking matchers with
the same semantics on the character classes they use.
-/

namespace VoterExtractor

/-- Characters matched by the Python regex class \s on str (Unicode whitespace). -/
def isPySpace (c : Char) : Bool :=
  c.toNat = 32 || c.toNat = 9 || c.toNat = 10 || c.toNat = 11 || c.toNat = 12 || c.toNat = 13 ||
  c.toNat = 28 || c.toNat = 29 || c.toNat = 30 || c.toNat = 31 || c.toNat = 133 || c.toNat = 160 ||
  c.toNat = 5760 || (8192 ≤ c.toNat && c.toNat ≤ 8202) || c.toNat = 8232 || c.toNat = 8233 ||
  c.toNat = 8239 || c.toNat = 8287 || c.toNat = 12288

/-- The regex class [A-Z] (ASCII uppercase only). -/
def isUpperAZ (c : Char) : Bool := 65 ≤ c.toNat && c.toNat ≤ 90

/-- The regex class [0-9] (ASCII digits). -/
def isDigit09 (c : Char) : Bool := 48 ≤ c.toNat && c.toNat ≤ 57

/-- The Python regex class \d (Unicode decimal digits); modelled here by the
digit ranges that can occur in the documents of this pipeline: ASCII 0-9 and
Devanagari ०-९ (U+0966..U+096F). -/
def isPyDigit (c : Char) : Bool := isDigit09 c || (2406 ≤ c.toNat && c.toNat ≤ 2415)

/-- The regex class [:\s]. -/
def isColonOrSpace (c : Char) : Bool := c.toNat = 58 || isPySpace c

/-- Python str.strip(): remove leading and trailing whitespace. -/
def pyStrip (s : List Char) : List Char :=
  ((s.dropWhile isPySpace).reverse.dropWhile isPySpace).reverse

/-- Python str.replace(" ", ""): remove every space character (U+0020). -/
def removeSpaces (s : List Char) : List Char := s.filter (fun c => c.toNat != 32)

/-- Whether the first list occurs literally at the start of the second. -/
def beginsWith : List Char → List Char → Bool
  | [], _ => true
  | _ :: _, [] => false
  | a :: as, b :: bs => a == b && beginsWith as bs

/-- Matcher for the regex suffix [:\s]*([^\n]+) (greedy, with backtracking):
try to consume another [:\s] character first; on failure of the rest, fall
back to starting the capture group here, which needs a non-newline character.
Returns the captured group. -/
def lineTail : List Char → Option (List Char)
  | [] => none
  | c :: cs =>
    if isColonOrSpace c then
      match lineTail cs with
      | some g => some g
      | none =>
        if c.toNat = 10 then none
        else some ((c :: cs).takeWhile (fun d => d.toNat != 10))
    else
      if c.toNat = 10 then none
      else some ((c :: cs).takeWhile (fun d => d.toNat != 10))

/-- At one start position, try each alternative label in order; when a label
matches literally, the rest of the pattern must also match, otherwise the
regex engine backtracks into the next alternative. -/
def tryLabelsAt : List (List Char) → List Char → Option (List Char)
  | [], _ => none
  | L :: Ls, s =>
    if beginsWith L s then
      match lineTail (s.drop L.length) with
      | some g => some g
      | none => tryLabelsAt Ls s
    else tryLabelsAt Ls s

/-- re.search for LABELS[:\s]*([^\n]+): leftmost start position wins. -/
def searchLabeledLine (labels : List (List Char)) : List Char → Option (List Char)
  | [] => none
  | s@(_ :: rest) =>
    match tryLabelsAt labels s with
    | some g => some g
    | none => searchLabeledLine labels rest

/-- Matcher for the regex suffix [:\s]*([0-9]{1,3}): the class [:\s] and
[0-9] are disjoint, so greedy class consumption needs no backtracking; the
group takes at most three digits and needs at least one. -/
def ageTail (s : List Char) : Option (List Char) :=
  let rest := s.dropWhile isColonOrSpace
  let ds := (rest.takeWhile isDigit09).take 3
  if ds.isEmpty then none else some ds

/-- re.search for LABEL[:\s]*([0-9]{1,3}). -/
def searchAge (label : List Char) : List Char → Option (List Char)
  | [] => none
  | s@(_ :: rest) =>
    if beginsWith label s then
      match ageTail (s.drop label.length) with
      | some g => some g
      | none => searchAge label rest
    else searchAge label rest

/-- Match of [A-Z]{3}\s*\d{7} anchored at the start of s, returning the whole
match (group 0).  \s and \d are disjoint, so the greedy whitespace run needs
no backtracking. -/
def voterIdAt (s : List Char) : Option (List Char) :=
  match s with
  | a :: b :: c :: rest =>
    if isUpperAZ a && isUpperAZ b && isUpperAZ c then
      let ws := rest.takeWhile isPySpace
      let tl := rest.dropWhile isPySpace
      let ds := tl.take 7
      if ds.length = 7 && ds.all isPyDigit then some (a :: b :: c :: (ws ++ ds))
      else none
    else none
  | _ => none

/-- re.search for [A-Z]{3}\s*\d{7}: leftmost start position wins. -/
def searchVoterId : List Char → Option (List Char)
  | [] => none
  | s@(_ :: rest) =>
    match voterIdAt s with
    | some m => some m
    | none => searchVoterId rest

def nameLabel : List Char := "निर्वाचक का नाम".data

def relLabels : List (List Char) := ["पिता का नाम".data, "पति का नाम".data, "अन्य".data]

def houseLabel : List Char := "मकान संख्या".data

def ageLabel : List Char := "उम्र".data

def genderLabel : List Char := "लिंग".data

/-- extract_from_cell_text (src/voter.py lines 52-65): six independent
re.search calls; group value (stripped) or "" for each field, in the fixed
order VoterID, VoterName, RelativeName, HouseNumber, Age, Gender.  The
VoterID takes group 0 with spaces removed via .replace(" ", ""). -/
def extract_from_cell_text (text : String) : List String :=
  let t := text.data
  let voter_id := match searchVoterId t with
    | some m => removeSpaces m
    | none => []
  let name := match searchLabeledLine [nameLabel] t with
    | some g => pyStrip g
    | none => []
  let relative := match searchLabeledLine relLabels t with
    | some g => pyStrip g
    | none => []
  let house := match searchLabeledLine [houseLabel] t with
    | some g => pyStrip g
    | none => []
  let age := match searchAge ageLabel t with
    | some g => pyStrip g
    | none => []
  let gender := match searchLabeledLine [genderLabel] t with
    | some g => pyStrip g
    | none => []
  [String.mk voter_id, String.mk name, String.mk relative, String.mk house,
   String.mk age, String.mk gender]

/-- A cell bounding box (x, y, width, height) as produced by cv2.boundingRect. -/
structure Box where
  x : Int
  y : Int
  w : Int
  h : Int
deriving DecidableEq, Repr

/-- Python sorted(boxes, key=lambda b: (b[1], b[0])): lexicographic order on
the (y, x) key. -/
def boxLE (a b : Box) : Bool := decide (a.y < b.y ∨ (a.y = b.y ∧ a.x ≤ b.x))

/-- Stable insertion of a box into a list sorted by boxLE: b goes in front
of the first element it compares ≤ to, hence behind earlier equal keys. -/
def insertBox (b : Box) : List Box → List Box
  | [] => [b]
  | ub :: rest => if boxLE b ub then b :: ub :: rest else ub :: insertBox b rest

/-- Python sorted(boxes, key=lambda b: (b[1], b[0])) is a stable sort on the
(y, x) key; embedded as a stable insertion sort, which computes the same
list. -/
def sortBoxes : List Box → List Box
  | [] => []
  | b :: rest => insertBox b (sortBoxes rest)

/-- The size filter of line 89: keep only boxes with w > 200 and h > 200. -/
def sizeFilter (l : List Box) : List Box :=
  l.filter (fun b => decide (200 < b.w ∧ 200 < b.h))

/-- The rejection test of line 93: b is within 15 pixels of ub on both axes. -/
def boxClose (b ub : Box) : Bool := decide (|b.x - ub.x| < 15 ∧ |b.y - ub.y| < 15)

/-- One iteration of the dedup loop (lines 92-94): append b unless it is
close to some already accepted box. -/
def dedupStep (acc : List Box) (b : Box) : List Box :=
  if acc.any (fun ub => boxClose b ub) then acc else acc ++ [b]

/-- Lines 91-94: sort boxes by (y, x) and greedily keep those not within 15
pixels (both axes) of an already kept box. -/
def unique_boxes (boxes : List Box) : List Box :=
  (sortBoxes boxes).foldl dedupStep []

/-- The OCR service response, reduced to the parts the code reads:
response.error.message and response.full_text_annotation.text. -/
structure OcrResponse where
  errorMessage : String
  text : String

/-- ocr_cell_google (lines 40-47): raise when the service reports an error
message, otherwise return the recognized text. -/
def ocr_cell_google (resp : OcrResponse) : Except String String :=
  if resp.errorMessage ≠ "" then Except.error ("OCR Error: " ++ resp.errorMessage)
  else Except.ok resp.text

/-- One page of the document, as seen by process_pdf_with_google after the
external collaborators ran: the bounding rectangles of the detected contours,
and the OCR service response for the cell cropped at each box. -/
structure PageData where
  rects : List Box
  respond : Box → OcrResponse

/-- The deduplicated cell boxes of one page (lines 88-94, after contour
bounding rectangles are taken as input). -/
def cellBoxes (p : PageData) : List Box := unique_boxes (sizeFilter p.rects)

/-- The body of the inner loop of lines 96-103: OCR the cell (which can
fail), extract fields, and append the record when any field is non-empty. -/
def cellStep (p : PageData) (acc : List (List String)) (b : Box) :
    Except String (List (List String)) := do
  let cellText ← ocr_cell_google (p.respond b)
  let voterData := extract_from_cell_text cellText
  pure (if voterData.any (fun s => !s.isEmpty) then acc ++ [voterData] else acc)

/-- The inner loop over the deduplicated boxes of one page, threading the
document-wide accumulator. -/
def pageVoters (p : PageData) (acc : List (List String)) :
    Except String (List (List String)) :=
  (cellBoxes p).foldlM (cellStep p) acc

/-- The page loop of process_pdf_with_google: all_voters accumulated across
pages, an OCR failure aborting the whole document. -/
def allVoters (pages : List PageData) : Except String (List (List String)) :=
  pages.foldlM (fun acc p => pageVoters p acc) []

/-- The spreadsheet written at lines 108-117: header row plus one row per
accumulated record. -/
structure Spreadsheet where
  header : List String
  rows : List (List String)
deriving DecidableEq, Repr

def voterColumns : List String :=
  ["VoterID", "VoterName", "RelativeName", "HouseNumber", "Age", "Gender"]

/-- process_pdf_with_google (lines 70-117): accumulate all voters, then
build the spreadsheet; nothing is written when any page fails. -/
def process_pdf_with_google (pages : List PageData) : Except String Spreadsheet := do
  let vs ← allVoters pages
  pure ⟨voterColumns, vs⟩

/-- The HTTP responses upload_file can produce. -/
inductive HttpResponse where
  | fileDownload (downloadName : String) (content : Spreadsheet)
  | plainText (body : String) (status : Nat)
  | jsonError (errorMessage : String) (status : Nat)
deriving DecidableEq, Repr

/-- upload_file (lines 126-144): with no "pdf_file" in the request, a plain
text 400; otherwise run the pipeline on the uploaded document (given here as
its pages) and send the file, or a JSON error body with status 500. -/
def upload_file (pdfFile : Option (List PageData)) : HttpResponse :=
  match pdfFile with
  | none => HttpResponse.plainText "No file uploaded" 400
  | some pages =>
    match process_pdf_with_google pages with
    | Except.ok s => HttpResponse.fileDownload "output.xlsx" s
    | Except.error e => HttpResponse.jsonError e 500

/-- The error-free projection of the inner loop: the records contributed by
one page when every OCR call succeeds, OCR seen as a text oracle. -/
def pageRecords (ocr : Box → String) (rects : List Box) : List (List String) :=
  (unique_boxes (sizeFilter rects)).foldl (fun acc b =>
    let d := extract_from_cell_text (ocr b)
    if d.any (fun s => !s.isEmpty) then acc ++ [d] else acc) []

/-- The error-free projection of the page loop: records across pages, in
page order. -/
def documentRecords (pages : List PageData) : List (List String) :=
  pages.foldl (fun acc p => acc ++ pageRecords (fun b => (p.respond b).text) p.rects) []

/-! ### Lemmas about the box pipeline -/

theorem boxClose_symm (a b : Box) : boxClose a b = boxClose b a := by
  simp only [boxClose, decide_eq_decide]
  rw [abs_sub_comm, abs_sub_comm a.y]

theorem boxLE_total (a b : Box) : boxLE a b = true ∨ boxLE b a = true := by
  simp only [boxLE, decide_eq_true_eq]
  omega

theorem boxLE_trans {a b c : Box} (h1 : boxLE a b = true) (h2 : boxLE b c = true) :
    boxLE a c = true := by
  simp only [boxLE, decide_eq_true_eq] at h1 h2 ⊢
  omega

theorem mem_insertBox {a b : Box} {l : List Box} : a ∈ insertBox b l ↔ a = b ∨ a ∈ l := by
  induction l with
  | nil => simp [insertBox]
  | cons ub rest ih =>
    by_cases h : boxLE b ub = true
    · simp [insertBox, h]
    · simp [insertBox, h, ih]
      tauto

theorem mem_sortBoxes {a : Box} {l : List Box} : a ∈ sortBoxes l ↔ a ∈ l := by
  induction l with
  | nil => simp [sortBoxes]
  | cons b rest ih => simp [sortBoxes, mem_insertBox, ih]

theorem pairwise_insertBox {b : Box} {l : List Box}
    (h : l.Pairwise (fun x y => boxLE x y = true)) :
    (insertBox b l).Pairwise (fun x y => boxLE x y = true) := by
  induction l with
  | nil => simp [insertBox]
  | cons ub rest ih =>
    rw [List.pairwise_cons] at h
    by_cases hle : boxLE b ub = true
    · rw [insertBox, if_pos hle, List.pairwise_cons]
      refine ⟨?_, List.pairwise_cons.mpr h⟩
      intro x hx
      rcases List.mem_cons.mp hx with hx | hx
      · rw [hx]
        exact hle
      · exact boxLE_trans hle (h.1 x hx)
    · rw [insertBox, if_neg hle, List.pairwise_cons]
      refine ⟨?_, ih h.2⟩
      intro x hx
      rcases mem_insertBox.mp hx with hx | hx
      · rw [hx]
        exact (boxLE_total b ub).resolve_left hle
      · exact h.1 x hx

theorem pairwise_sortBoxes (l : List Box) :
    (sortBoxes l).Pairwise (fun x y => boxLE x y = true) := by
  induction l with
  | nil => simp [sortBoxes]
  | cons b rest ih => exact pairwise_insertBox ih

theorem foldl_dedupStep_split (l : List Box) :
    ∀ acc : List Box, ∃ s, l.foldl dedupStep acc = acc ++ s ∧ s.Sublist l := by
  induction l with
  | nil => exact fun acc => ⟨[], by simp⟩
  | cons x xs ih =>
    intro acc
    rw [List.foldl_cons, dedupStep]
    by_cases h : acc.any (fun ub => boxClose x ub) = true
    · rw [if_pos h]
      obtain ⟨s, hs, hsub⟩ := ih acc
      exact ⟨s, hs, hsub.cons x⟩
    · rw [if_neg h]
      obtain ⟨s, hs, hsub⟩ := ih (acc ++ [x])
      exact ⟨x :: s, by simpa using hs, hsub.cons₂ x⟩

theorem pairwise_foldl_dedupStep (l : List Box) :
    ∀ acc : List Box, acc.Pairwise (fun a b => boxClose b a = false) →
      (l.foldl dedupStep acc).Pairwise (fun a b => boxClose b a = false) := by
  induction l with
  | nil => exact fun acc h => h
  | cons x xs ih =>
    intro acc h
    rw [List.foldl_cons, dedupStep]
    by_cases hx : acc.any (fun ub => boxClose x ub) = true
    · rw [if_pos hx]
      exact ih acc h
    · rw [if_neg hx]
      refine ih (acc ++ [x]) (List.pairwise_append.mpr ⟨h, by simp, ?_⟩)
      intro a ha b hb
      rw [List.mem_singleton] at hb
      subst hb
      simpa using (List.any_eq_false.mp (Bool.not_eq_true _ ▸ hx)) a ha

theorem mem_unique_boxes_sub {b : Box} {l : List Box} (h : b ∈ unique_boxes l) : b ∈ l := by
  obtain ⟨s, hs, hsub⟩ := foldl_dedupStep_split (sortBoxes l) []
  rw [unique_boxes, hs] at h
  simp at h
  exact mem_sortBoxes.mp (hsub.subset h)

theorem pairwise_unique_boxes (l : List Box) :
    (unique_boxes l).Pairwise (fun a b => boxClose b a = false) :=
  pairwise_foldl_dedupStep (sortBoxes l) [] (by simp)

theorem sorted_unique_boxes (l : List Box) :
    (unique_boxes l).Pairwise (fun x y => boxLE x y = true) := by
  obtain ⟨s, hs, hsub⟩ := foldl_dedupStep_split (sortBoxes l) []
  rw [unique_boxes, hs]
  simpa using (pairwise_sortBoxes l).sublist hsub

/-! ### Claims C2, C3, C5 -/

/-- C2: for every input list of boxes, no two distinct boxes of the
deduplicated box set are within 15 pixels of each other on both axes. -/
theorem dedup_separation (boxes : List Box) :
    ∀ b1 ∈ unique_boxes boxes, ∀ b2 ∈ unique_boxes boxes, b1 ≠ b2 →
      ¬(|b1.x - b2.x| < 15 ∧ |b1.y - b2.y| < 15) := by
  intro b1 h1 b2 h2 hne
  have hp : (unique_boxes boxes).Pairwise
      (fun a b => ¬(|a.x - b.x| < 15 ∧ |a.y - b.y| < 15)) := by
    refine (pairwise_unique_boxes boxes).imp ?_
    intro a b hab
    simp only [boxClose, decide_eq_false_iff_not] at hab
    rw [abs_sub_comm b.x, abs_sub_comm b.y] at hab
    exact hab
  have hsymm : Symmetric (fun a b : Box => ¬(|a.x - b.x| < 15 ∧ |a.y - b.y| < 15)) := by
    intro a b hab
    rw [abs_sub_comm b.x, abs_sub_comm b.y]
    exact hab
  exact hp.forall hsymm h1 h2 hne

def sepWitnessBoxes : List Box := [⟨0, 0, 300, 300⟩, ⟨100, 100, 300, 300⟩]

theorem dedup_separation_witness :
    ¬(|(Box.mk 0 0 300 300).x - (Box.mk 100 100 300 300).x| < 15 ∧
      |(Box.mk 0 0 300 300).y - (Box.mk 100 100 300 300).y| < 15) :=
  dedup_separation sepWitnessBoxes ⟨0, 0, 300, 300⟩ (by decide) ⟨100, 100, 300, 300⟩
    (by decide) (by decide)

/-- C3: every box surviving the size filter (hence every deduplicated box)
has width > 200 and height > 200; boxes failing this are discarded. -/
theorem size_filter_invariant :
    (∀ (l : List Box) (b : Box), b ∈ sizeFilter l → 200 < b.w ∧ 200 < b.h) ∧
    (∀ (l : List Box) (b : Box), b ∈ unique_boxes (sizeFilter l) → 200 < b.w ∧ 200 < b.h) ∧
    (∀ (l : List Box) (b : Box), b.w ≤ 200 ∨ b.h ≤ 200 → b ∉ sizeFilter l) := by
  have hf : ∀ (l : List Box) (b : Box), b ∈ sizeFilter l → 200 < b.w ∧ 200 < b.h := by
    intro l b hb
    have := (List.mem_filter.mp hb).2
    simpa using this
  refine ⟨hf, ?_, ?_⟩
  · intro l b hb
    exact hf l b (mem_unique_boxes_sub hb)
  · intro l b hb hmem
    rcases hf l b hmem with ⟨hw, hh⟩
    omega

theorem size_filter_invariant_witness :
    200 < (Box.mk 0 0 300 300).w ∧ 200 < (Box.mk 0 0 300 300).h :=
  size_filter_invariant.2.1 [⟨0, 0, 300, 300⟩, ⟨0, 0, 100, 300⟩] ⟨0, 0, 300, 300⟩ (by decide)

/-- C5: dedup sorts by (y, x) ascending and keeps a box only when no
previously kept box is within 15 pixels on both axes; on the two overlapping
boxes (100,100,250,250) and (105,103,250,250) — in either input order —
exactly the sort-order-first box (100,100,250,250) is retained. -/
theorem dedup_overlap_example :
    unique_boxes [⟨100, 100, 250, 250⟩, ⟨105, 103, 250, 250⟩] = [⟨100, 100, 250, 250⟩] ∧
    unique_boxes [⟨105, 103, 250, 250⟩, ⟨100, 100, 250, 250⟩] = [⟨100, 100, 250, 250⟩] ∧
    sortBoxes [⟨105, 103, 250, 250⟩, ⟨100, 100, 250, 250⟩] =
      [⟨100, 100, 250, 250⟩, ⟨105, 103, 250, 250⟩] := by
  decide

/-! ### Lemmas about the orchestrator loops -/

theorem foldl_keep_append {α β : Type} (f : α → β) (P : β → Bool) (l : List α) :
    ∀ acc : List β,
      l.foldl (fun acc b => if P (f b) then acc ++ [f b] else acc) acc
        = acc ++ (l.map f).filter P := by
  induction l with
  | nil => intro acc; simp
  | cons x xs ih =>
    intro acc
    rw [List.foldl_cons]
    by_cases h : P (f x) = true
    · rw [if_pos h, ih, List.map_cons, List.filter_cons]
      simp [h]
    · rw [if_neg h, ih, List.map_cons, List.filter_cons]
      simp [h]

theorem foldl_append_flatten {α β : Type} (g : α → List β) (l : List α) :
    ∀ acc : List β, l.foldl (fun acc p => acc ++ g p) acc = acc ++ (l.map g).flatten := by
  induction l with
  | nil => intro acc; simp
  | cons x xs ih =>
    intro acc
    rw [List.foldl_cons, ih]
    simp

theorem pageRecords_eq (ocr : Box → String) (rects : List Box) :
    pageRecords ocr rects =
      ((unique_boxes (sizeFilter rects)).map (fun b => extract_from_cell_text (ocr b))).filter
        (fun d => d.any (fun s => !s.isEmpty)) := by
  have := foldl_keep_append (fun b => extract_from_cell_text (ocr b))
    (fun d => d.any (fun s => !s.isEmpty)) (unique_boxes (sizeFilter rects)) []
  simpa [pageRecords] using this

theorem documentRecords_eq (pages : List PageData) :
    documentRecords pages =
      (pages.map (fun p => pageRecords (fun b => (p.respond b).text) p.rects)).flatten := by
  have := foldl_append_flatten
    (fun p : PageData => pageRecords (fun b => (p.respond b).text) p.rects) pages []
  simpa [documentRecords] using this

theorem cellStep_ok {p : PageData} {b : Box} (h : (p.respond b).errorMessage = "")
    (acc : List (List String)) :
    cellStep p acc b = Except.ok
      (if (extract_from_cell_text ((p.respond b).text)).any (fun s => !s.isEmpty)
       then acc ++ [extract_from_cell_text ((p.respond b).text)] else acc) := by
  simp [cellStep, ocr_cell_google, h, Except.bind]

theorem cellStep_err {p : PageData} {b : Box} (h : ¬(p.respond b).errorMessage = "")
    (acc : List (List String)) :
    cellStep p acc b = Except.error ("OCR Error: " ++ (p.respond b).errorMessage) := by
  simp [cellStep, ocr_cell_google, h, Except.bind]

theorem foldlM_cellStep_ok {p : PageData} (l : List Box)
    (h : ∀ b ∈ l, (p.respond b).errorMessage = "") :
    ∀ acc, List.foldlM (cellStep p) acc l = Except.ok
      (l.foldl (fun acc b =>
        if (extract_from_cell_text ((p.respond b).text)).any (fun s => !s.isEmpty)
        then acc ++ [extract_from_cell_text ((p.respond b).text)] else acc) acc) := by
  induction l with
  | nil => intro acc; rfl
  | cons x xs ih =>
    intro acc
    rw [List.foldlM_cons, cellStep_ok (h x (by simp)) acc]
    rw [List.foldl_cons]
    have hxs : ∀ b ∈ xs, (p.respond b).errorMessage = "" := fun b hb => h b (by simp [hb])
    simpa [Except.bind] using ih hxs _

theorem pageVoters_ok {p : PageData}
    (h : ∀ b ∈ cellBoxes p, (p.respond b).errorMessage = "") (acc : List (List String)) :
    pageVoters p acc =
      Except.ok (acc ++ pageRecords (fun b => (p.respond b).text) p.rects) := by
  rw [pageVoters, foldlM_cellStep_ok (cellBoxes p) h acc]
  rw [foldl_keep_append (fun b => extract_from_cell_text ((p.respond b).text))
    (fun d => d.any (fun s => !s.isEmpty)) (cellBoxes p) acc]
  rw [pageRecords_eq]
  rfl

theorem allVoters_ok (pages : List PageData)
    (h : ∀ p ∈ pages, ∀ b ∈ cellBoxes p, (p.respond b).errorMessage = "") :
    allVoters pages = Except.ok (documentRecords pages) := by
  suffices hgen : ∀ acc, List.foldlM (fun acc p => pageVoters p acc) acc pages =
      Except.ok (pages.foldl (fun acc p =>
        acc ++ pageRecords (fun b => (p.respond b).text) p.rects) acc) by
    exact hgen []
  induction pages with
  | nil => intro acc; rfl
  | cons q qs ih =>
    intro acc
    rw [List.foldlM_cons, pageVoters_ok (h q (by simp)) acc, List.foldl_cons]
    have hqs : ∀ p ∈ qs, ∀ b ∈ cellBoxes p, (p.respond b).errorMessage = "" :=
      fun p hp => h p (by simp [hp])
    simpa [Except.bind] using ih hqs _

/-! ### Claims C4 and C8 -/

/-- C4: the inner loop keeps a record exactly when some field is non-empty
(a filter over the extracted records, in order), so a record whose six
fields are all empty never reaches the document result. -/
theorem record_kept_iff_nonempty_field :
    (∀ (ocr : Box → String) (rects : List Box),
      pageRecords ocr rects =
        ((unique_boxes (sizeFilter rects)).map (fun b => extract_from_cell_text (ocr b))).filter
          (fun d => d.any (fun s => !s.isEmpty))) ∧
    (∀ (pages : List PageData) (r : List String),
      r ∈ documentRecords pages → r.any (fun s => !s.isEmpty) = true) ∧
    (∀ (pages : List PageData) (r : List String),
      (∀ s ∈ r, s = "") → r ∉ documentRecords pages) := by
  have hmem : ∀ (pages : List PageData) (r : List String),
      r ∈ documentRecords pages → r.any (fun s => !s.isEmpty) = true := by
    intro pages r hr
    rw [documentRecords_eq] at hr
    obtain ⟨l, hl, hrl⟩ := List.mem_flatten.mp hr
    obtain ⟨p, _, hpl⟩ := List.mem_map.mp hl
    rw [← hpl, pageRecords_eq] at hrl
    exact (List.mem_filter.mp hrl).2
  refine ⟨pageRecords_eq, hmem, ?_⟩
  intro pages r hall hr
  have := hmem pages r hr
  rw [List.any_eq_true] at this
  obtain ⟨s, hs, hne⟩ := this
  rw [hall s hs] at hne
  exact absurd hne (by decide)

def pageW1 : PageData :=
  ⟨[⟨0, 600, 300, 300⟩, ⟨0, 0, 300, 300⟩, ⟨0, 300, 300, 300⟩],
   fun b => ⟨"", if b.y = 0 then "AAA1234567"
                 else if b.y = 300 then "ABB1234567" else "ACC1234567"⟩⟩

def pageW2 : PageData := ⟨[], fun _ => ⟨"", ""⟩⟩

theorem record_kept_iff_nonempty_field_witness :
    (["AAA1234567", "", "", "", "", ""] : List String).any (fun s => !s.isEmpty) = true :=
  record_kept_iff_nonempty_field.2.1 [pageW1] ["AAA1234567", "", "", "", "", ""] (by decide)

/-- C8: the document result is the concatenation of the per-page record
lists in page order; within a page, records follow the deduplicated boxes,
which are sorted by (y, x) ascending; a 2-page document whose second page
yields no records produces exactly the records of the first page. -/
theorem document_result_order :
    (∀ pages : List PageData, documentRecords pages =
      (pages.map (fun p => pageRecords (fun b => (p.respond b).text) p.rects)).flatten) ∧
    (∀ p1 p2 : PageData, pageRecords (fun b => (p2.respond b).text) p2.rects = [] →
      documentRecords [p1, p2] = pageRecords (fun b => (p1.respond b).text) p1.rects) ∧
    (∀ rects : List Box,
      (unique_boxes (sizeFilter rects)).Pairwise (fun a b => boxLE a b = true)) := by
  refine ⟨documentRecords_eq, ?_, fun rects => sorted_unique_boxes (sizeFilter rects)⟩
  intro p1 p2 h2
  rw [documentRecords_eq]
  simp [h2]

theorem document_result_order_witness :
    documentRecords [pageW1, pageW2] =
      pageRecords (fun b => (pageW1.respond b).text) pageW1.rects ∧
    pageRecords (fun b => (pageW1.respond b).text) pageW1.rects =
      [["AAA1234567", "", "", "", "", ""], ["ABB1234567", "", "", "", "", ""],
       ["ACC1234567", "", "", "", "", ""]] :=
  ⟨document_result_order.2.1 pageW1 pageW2 (by decide), by decide⟩

/-! ### Claim C7: OCR error propagation -/

theorem foldlM_exists_error {α β : Type} (f : α → β → Except String α) (b : β)
    (l : List β) (hb : b ∈ l) (herr : ∀ a, ∃ e, f a b = Except.error e) :
    ∀ init, ∃ e, List.foldlM f init l = Except.error e := by
  induction l with
  | nil => cases hb
  | cons x xs ih =>
    intro init
    rcases List.mem_cons.mp hb with hx | hx
    · obtain ⟨e, he⟩ := herr init
      rw [hx] at he
      refine ⟨e, ?_⟩
      rw [List.foldlM_cons, he]
      rfl
    · cases hfx : f init x with
      | error e =>
        refine ⟨e, ?_⟩
        rw [List.foldlM_cons, hfx]
        rfl
      | ok a =>
        obtain ⟨e, he⟩ := ih hx a
        refine ⟨e, ?_⟩
        rw [List.foldlM_cons, hfx]
        exact he

/-- C7: a non-empty OCR service error message makes ocr_cell_google raise an
error carrying that message; for any cell of any page of the document, that
error aborts the whole document: no record list, no spreadsheet, and the
HTTP caller gets a JSON error body with status 500. -/
theorem ocr_error_propagation :
    (∀ resp : OcrResponse, resp.errorMessage ≠ "" →
      ocr_cell_google resp = Except.error ("OCR Error: " ++ resp.errorMessage)) ∧
    (∀ (pages : List PageData) (p : PageData) (b : Box),
      p ∈ pages → b ∈ cellBoxes p → (p.respond b).errorMessage ≠ "" →
      ∃ e, allVoters pages = Except.error e ∧
        process_pdf_with_google pages = Except.error e ∧
        upload_file (some pages) = HttpResponse.jsonError e 500) := by
  constructor
  · intro resp h
    simp [ocr_cell_google, h]
  · intro pages p b hp hb hmsg
    have hcell : ∀ acc, ∃ e, List.foldlM (cellStep p) acc (cellBoxes p) = Except.error e :=
      fun acc => foldlM_exists_error (cellStep p) b (cellBoxes p) hb
        (fun a => ⟨_, cellStep_err hmsg a⟩) acc
    have hdoc : ∃ e, allVoters pages = Except.error e :=
      foldlM_exists_error (fun acc q => pageVoters q acc) p pages hp
        (fun a => hcell a) []
    obtain ⟨e, he⟩ := hdoc
    refine ⟨e, he, ?_, ?_⟩
    · simp [process_pdf_with_google, he, Except.bind]
    · simp [upload_file, process_pdf_with_google, he, Except.bind]

def pageErr : PageData := ⟨[⟨0, 0, 300, 300⟩], fun _ => ⟨"boom", ""⟩⟩

theorem ocr_error_propagation_witness :
    ocr_cell_google ⟨"boom", ""⟩ = Except.error "OCR Error: boom" ∧
    ∃ e, allVoters [pageErr] = Except.error e ∧
      process_pdf_with_google [pageErr] = Except.error e ∧
      upload_file (some [pageErr]) = HttpResponse.jsonError e 500 :=
  ⟨ocr_error_propagation.1 ⟨"boom", ""⟩ (by decide),
   ocr_error_propagation.2 [pageErr] pageErr ⟨0, 0, 300, 300⟩ (by simp) (by decide)
     (by decide)⟩

/-! ### Claim C9: the responses of the upload endpoint -/

def isFileResponse : HttpResponse → Bool
  | HttpResponse.fileDownload _ _ => true
  | _ => false

def isJsonErrorResponse : HttpResponse → Bool
  | HttpResponse.jsonError _ _ => true
  | _ => false

/-- C9 counterexample: a request with no PDF file attached gets the plain
text body "No file uploaded" with status 400, which is neither a file
download nor a JSON error body. -/
theorem upload_no_file_plain_text :
    upload_file none = HttpResponse.plainText "No file uploaded" 400 ∧
    isFileResponse (upload_file none) = false ∧
    isJsonErrorResponse (upload_file none) = false := by
  refine ⟨rfl, rfl, rfl⟩

/-- C9 (amended): with no PDF attached the response is the plain text
"No file uploaded" with status 400; for an attached document, the response
is either the spreadsheet as a file download or a JSON error body with
status 500. -/
theorem upload_response_shape :
    upload_file none = HttpResponse.plainText "No file uploaded" 400 ∧
    ∀ pages : List PageData,
      (∃ s, upload_file (some pages) = HttpResponse.fileDownload "output.xlsx" s) ∨
      (∃ e, upload_file (some pages) = HttpResponse.jsonError e 500) := by
  refine ⟨rfl, ?_⟩
  intro pages
  cases hres : process_pdf_with_google pages with
  | ok s => exact Or.inl ⟨s, by simp [upload_file, hres]⟩
  | error e => exact Or.inr ⟨e, by simp [upload_file, hres]⟩

/-! ### Claim C1: the worked extraction example -/

def inputEnglishLabels : String :=
  "AAB1234567\nVoter" ++ String.mk [Char.ofNat 39] ++ "s Name: Jane Doe\nAge: 45"

/-- C1 counterexample: on the literal input of the claim — whose labels are the
English renderings, not the Hindi literals the code searches for — the name
and age fields come back empty, so the claimed 6-tuple is not returned. -/
theorem extract_english_labels_example :
    extract_from_cell_text inputEnglishLabels = ["AAB1234567", "", "", "", "", ""] ∧
    (["AAB1234567", "", "", "", "", ""] : List String) ≠
      ["AAB1234567", "Jane Doe", "", "", "45", ""] := by
  refine ⟨by decide, by decide⟩

/-- C1 (amended): with the literal labels of the code — "निर्वाचक का नाम" for
the voter name and "उम्र" for the age — the cell text yields exactly
("AAB1234567", "Jane Doe", "", "", "45", ""). -/
theorem extract_hindi_labels_example :
    extract_from_cell_text "AAB1234567\nनिर्वाचक का नाम: Jane Doe\nउम्र: 45" =
      ["AAB1234567", "Jane Doe", "", "", "45", ""] := by
  decide

/-! ### Claim C10: total extraction with six ordered fields -/

/-- C10: extraction is total (a Lean function), always returns exactly six
strings in the fixed order VoterID, VoterName, RelativeName, HouseNumber,
Age, Gender, and each field whose search fails is the empty string; in
particular the empty input yields six empty strings. -/
theorem extract_total_six_fields :
    (∀ text : String, (extract_from_cell_text text).length = 6) ∧
    extract_from_cell_text "" = ["", "", "", "", "", ""] ∧
    (∀ text : String,
      (searchVoterId text.data = none → (extract_from_cell_text text).get? 0 = some "") ∧
      (searchLabeledLine [nameLabel] text.data = none →
        (extract_from_cell_text text).get? 1 = some "") ∧
      (searchLabeledLine relLabels text.data = none →
        (extract_from_cell_text text).get? 2 = some "") ∧
      (searchLabeledLine [houseLabel] text.data = none →
        (extract_from_cell_text text).get? 3 = some "") ∧
      (searchAge ageLabel text.data = none →
        (extract_from_cell_text text).get? 4 = some "") ∧
      (searchLabeledLine [genderLabel] text.data = none →
        (extract_from_cell_text text).get? 5 = some "")) := by
  refine ⟨fun text => rfl, by decide, ?_⟩
  intro text
  refine ⟨?_, ?_, ?_, ?_, ?_, ?_⟩ <;>
    (intro h; simp [extract_from_cell_text, h])

theorem extract_total_six_fields_witness :
    (extract_from_cell_text "xyz").get? 0 = some "" ∧
    (extract_from_cell_text "xyz").get? 1 = some "" ∧
    (extract_from_cell_text "xyz").get? 2 = some "" ∧
    (extract_from_cell_text "xyz").get? 3 = some "" ∧
    (extract_from_cell_text "xyz").get? 4 = some "" ∧
    (extract_from_cell_text "xyz").get? 5 = some "" :=
  ⟨(extract_total_six_fields.2.2 "xyz").1 (by decide),
   (extract_total_six_fields.2.2 "xyz").2.1 (by decide),
   (extract_total_six_fields.2.2 "xyz").2.2.1 (by decide),
   (extract_total_six_fields.2.2 "xyz").2.2.2.1 (by decide),
   (extract_total_six_fields.2.2 "xyz").2.2.2.2.1 (by decide),
   (extract_total_six_fields.2.2 "xyz").2.2.2.2.2 (by decide)⟩

/-! ### Claim C6: the VoterID field is the leftmost regex match -/

/-- Declarative shape of a substring matched by [A-Z]{3}\s*\d{7}: three
ASCII uppercase letters, then a run of whitespace, then seven digits. -/
def VoterIdShape (m : List Char) : Prop :=
  ∃ a b c ws ds, m = a :: b :: c :: (ws ++ ds) ∧
    isUpperAZ a = true ∧ isUpperAZ b = true ∧ isUpperAZ c = true ∧
    (∀ x ∈ ws, isPySpace x = true) ∧ ds.length = 7 ∧ (∀ x ∈ ds, isPyDigit x = true)

/-- The pattern [A-Z]{3}\s*\d{7} matches the substring m of t starting at
index i. -/
def voterIdOccursAt (t : List Char) (i : Nat) (m : List Char) : Prop :=
  VoterIdShape m ∧ m <+: t.drop i

theorem isPySpace_false_of_isPyDigit {c : Char} (h : isPyDigit c = true) :
    isPySpace c = false := by
  simp only [isPyDigit, isDigit09, Bool.or_eq_true, Bool.and_eq_true, decide_eq_true_eq] at h
  simp only [isPySpace, Bool.or_eq_false_iff, Bool.and_eq_false_iff, decide_eq_false_iff_not]
  omega

theorem voterIdAt_some_iff {s m : List Char} :
    voterIdAt s = some m ↔ (VoterIdShape m ∧ m <+: s) := by
  constructor
  · intro h
    match s with
    | [] => simp [voterIdAt] at h
    | [a] => simp [voterIdAt] at h
    | [a, b] => simp [voterIdAt] at h
    | a :: b :: c :: rest =>
      rw [voterIdAt] at h
      by_cases hup : (isUpperAZ a && isUpperAZ b && isUpperAZ c) = true
      · rw [if_pos hup] at h
        by_cases hds : (((rest.dropWhile isPySpace).take 7).length = 7 &&
            ((rest.dropWhile isPySpace).take 7).all isPyDigit) = true
        · rw [if_pos hds] at h
          simp only [Option.some.injEq] at h
          simp only [Bool.and_eq_true, decide_eq_true_eq] at hup hds
          refine ⟨⟨a, b, c, rest.takeWhile isPySpace, (rest.dropWhile isPySpace).take 7,
            h.symm, hup.1.1, hup.1.2, hup.2,
            fun x hx => List.mem_takeWhile_imp hx,
            by simpa using hds.1, fun x hx => List.all_eq_true.mp hds.2 x hx⟩, ?_⟩
          rw [← h]
          rw [List.cons_prefix_cons]
          refine ⟨rfl, ?_⟩
          rw [List.cons_prefix_cons]
          refine ⟨rfl, ?_⟩
          rw [List.cons_prefix_cons]
          refine ⟨rfl, ?_⟩
          conv_rhs => rw [← List.takeWhile_append_dropWhile isPySpace rest]
          rw [List.prefix_append_right_inj]
          exact List.take_prefix 7 (rest.dropWhile isPySpace)
        · rw [if_neg hds] at h
          cases h
      · rw [if_neg hup] at h
        cases h
  · rintro ⟨⟨a, b, c, ws, ds, hm, ha, hb, hc, hws, hlen, hds⟩, hpre⟩
    subst hm
    obtain ⟨r, hr⟩ := hpre
    match ds, hlen with
    | d0 :: ds', hlen =>
      have hs : s = a :: b :: c :: (ws ++ ((d0 :: ds') ++ r)) := by
        rw [← hr]
        simp
      have h0 : isPySpace d0 = false := isPySpace_false_of_isPyDigit (hds d0 (by simp))
      have htake : (ws ++ ((d0 :: ds') ++ r)).takeWhile isPySpace = ws := by
        simp [List.takeWhile_append, List.takeWhile_eq_self_iff.mpr hws,
          List.takeWhile_cons, h0]
      have hdrop : (ws ++ ((d0 :: ds') ++ r)).dropWhile isPySpace = (d0 :: ds') ++ r := by
        have hsplit := List.takeWhile_append_dropWhile isPySpace (ws ++ ((d0 :: ds') ++ r))
        rw [htake] at hsplit
        exact List.append_cancel_left hsplit
      have h7 : ((d0 :: ds') ++ r).take 7 = d0 :: ds' := by
        rw [← hlen, List.take_left]
      rw [hs, voterIdAt]
      rw [if_pos (by simp [ha, hb, hc])]
      simp only [htake, hdrop, h7]
      rw [if_pos (by simp [hlen, List.all_eq_true.mpr hds])]

theorem searchVoterId_spec (t : List Char) :
    (searchVoterId t = none ∧ ∀ i m, ¬ voterIdOccursAt t i m) ∨
    (∃ i m, searchVoterId t = some m ∧ voterIdOccursAt t i m ∧
      ∀ j m', voterIdOccursAt t j m' → i ≤ j) := by
  induction t with
  | nil =>
    left
    refine ⟨rfl, ?_⟩
    rintro i m ⟨⟨a, b, c, ws, ds, hm, _⟩, hpre⟩
    rw [List.drop_nil, List.prefix_nil] at hpre
    rw [hm] at hpre
    cases hpre
  | cons c rest ih =>
    cases hat : voterIdAt (c :: rest) with
    | some m =>
      right
      refine ⟨0, m, by rw [searchVoterId, hat], ?_, fun j m' _ => Nat.zero_le j⟩
      rw [voterIdOccursAt, List.drop_zero]
      exact voterIdAt_some_iff.mp hat
    | none =>
      have hsearch : searchVoterId (c :: rest) = searchVoterId rest := by
        rw [searchVoterId, hat]
      rcases ih with ⟨hnone, hno⟩ | ⟨i, m, hs, hocc, hmin⟩
      · left
        refine ⟨by rw [hsearch, hnone], ?_⟩
        intro i m hoc
        match i with
        | 0 =>
          rw [voterIdOccursAt, List.drop_zero] at hoc
          rw [voterIdAt_some_iff.mpr hoc] at hat
          cases hat
        | j + 1 =>
          rw [voterIdOccursAt, List.drop_succ_cons] at hoc
          exact hno j m hoc
      · right
        refine ⟨i + 1, m, by rw [hsearch, hs], ?_, ?_⟩
        · rw [voterIdOccursAt, List.drop_succ_cons]
          exact hocc
        · intro j m' hoc
          match j with
          | 0 =>
            rw [voterIdOccursAt, List.drop_zero] at hoc
            rw [voterIdAt_some_iff.mpr hoc] at hat
            cases hat
          | j' + 1 =>
            rw [voterIdOccursAt, List.drop_succ_cons] at hoc
            exact Nat.succ_le_succ (hmin j' m' hoc)

/-- C6 counterexample: the code removes only space characters (U+0020) from
the matched substring, via .replace(" ", ""); on "ABC\t1234567" the first
match is "ABC\t1234567" and the tab — whitespace matched by \s* between the
letters and the digits — is NOT stripped, contradicting the claim that the
whitespace is stripped from the returned value. -/
theorem extract_tab_voter_id :
    extract_from_cell_text "ABC\t1234567" = ["ABC\t1234567", "", "", "", "", ""] ∧
    ("ABC\t1234567" : String) ≠ "ABC1234567" := by
  refine ⟨by decide, by decide⟩

/-- C6 (amended): the VoterID field is the leftmost substring of the input
matching three uppercase letters, optional whitespace, then seven digits,
with the space characters (U+0020) removed from the match (other whitespace,
e.g. a tab, is kept); it is the empty string when no such substring exists. -/
theorem voter_id_first_match (text : String) :
    ((∀ i m, ¬ voterIdOccursAt text.data i m) ∧
      (extract_from_cell_text text).get? 0 = some "") ∨
    (∃ i m, voterIdOccursAt text.data i m ∧
      (∀ j m', voterIdOccursAt text.data j m' → i ≤ j) ∧
      (extract_from_cell_text text).get? 0 = some (String.mk (removeSpaces m))) := by
  rcases searchVoterId_spec text.data with ⟨hs, hno⟩ | ⟨i, m, hs, hocc, hmin⟩
  · left
    exact ⟨hno, by simp [extract_from_cell_text, hs]⟩
  · right
    exact ⟨i, m, hocc, hmin, by simp [extract_from_cell_text, hs]⟩

end VoterExtractor
